import Mathlib

/-!
Shallow embedding of the regional-timeline aggregation and sentiment
pipeline (Next.js route handler `src/app/api/timeline/[region]/route.ts`,
the Cloudflare Pages functions `functions/api/timeline/[region].ts` and
`functions/api/analyze-sentiment.ts`, and their iterative draft variants).

Machine numbers are modelled exactly: JavaScript `number` scores are
rationals, counts and HTTP statuses are naturals, and `Math.round` on the
non-negative percentage expressions is modelled as exact rational rounding
(`floor (x + 1/2)`, which agrees with `Math.round` on non-negative values).
External effects (network fetches, the AI classifier, the KV store,
`JSON.parse` of externally-provided configuration, `Date` parsing) are
modelled as explicit oracle inputs to the otherwise-pure handler functions.
-/

namespace Pol

/-! ## JavaScript string helpers

`stripHtml` (route.ts lines 60-70, duplicated verbatim in
`analyze-sentiment`): replace `<p>` and `<br ... >` tags by a space,
delete all remaining `<...>` tags, collapse whitespace runs to a single
space and trim.  (The entity-decoding lines in the source,
`text.replace(/&/g, '&')` and so on, are literal identity replacements as
written in the file, so they contribute nothing and are omitted.)
-/

/-- The whitespace class matched by JavaScript `\s` on the ASCII range:
space, tab, line feed, vertical tab, form feed, carriage return. -/
def isJsSpace (c : Char) : Bool :=
  c = ' ' || c = '\t' || c = '\n' || c = Char.ofNat 11 || c = Char.ofNat 12 || c = '\r'

/-- Global replacement `/<p>/gi` by a single space. -/
def replacePTags : List Char → List Char
  | '<' :: c :: '>' :: rest =>
    if c = 'p' || c = 'P' then ' ' :: replacePTags rest
    else '<' :: replacePTags (c :: '>' :: rest)
  | c :: rest => c :: replacePTags rest
  | [] => []

/-- After having read `<br` (case-insensitively), consume the `\s*\/?>`
tail of the pattern `/<br\s*\/?>/gi`; on success return the characters
after the match. -/
def brClose (l : List Char) : Option (List Char) :=
  match l.dropWhile isJsSpace with
  | '/' :: '>' :: rest => some rest
  | '>' :: rest => some rest
  | _ => none

/-- Global replacement `/<br\s*\/?>/gi` by a single space. -/
def replaceBrTags : List Char → List Char
  | '<' :: b :: r :: rest =>
    if (b = 'b' || b = 'B') && (r = 'r' || r = 'R') then
      match hm : brClose rest with
      | some rest' => ' ' :: replaceBrTags rest'
      | none => '<' :: replaceBrTags (b :: r :: rest)
    else '<' :: replaceBrTags (b :: r :: rest)
  | c :: rest => c :: replaceBrTags rest
  | [] => []
termination_by l => l.length
decreasing_by
  · have hd : (rest.dropWhile isJsSpace).length ≤ rest.length :=
      (List.dropWhile_sublist isJsSpace).length_le
    unfold brClose at hm
    split at hm
    · rename_i r2 heq
      cases hm
      have h2 := congrArg List.length heq
      simp only [List.length_cons] at h2
      simp only [List.length_cons]
      omega
    · rename_i r2 heq
      cases hm
      have h2 := congrArg List.length heq
      simp only [List.length_cons] at h2
      simp only [List.length_cons]
      omega
    · cases hm
  · simp
  · simp
  · simp

/-- Skip to just past the first `>` of the list, if any. -/
def pastGt (l : List Char) : Option (List Char) :=
  match l.dropWhile (fun c => c ≠ '>') with
  | _ :: rest => some rest
  | [] => none

/-- Global deletion `/<[^>]*>/g`: a `<` with a later `>` removes
everything through that first `>`; a `<` with no further `>` can start no
match, and nothing after it can match either (a match needs a `>`). -/
def stripTags : List Char → List Char
  | '<' :: rest =>
    match hm : pastGt rest with
    | some rest' => stripTags rest'
    | none => '<' :: rest
  | c :: rest => c :: stripTags rest
  | [] => []
termination_by l => l.length
decreasing_by
  · have hd : (rest.dropWhile (fun c => c ≠ '>')).length ≤ rest.length :=
      (List.dropWhile_sublist _).length_le
    unfold pastGt at hm
    split at hm
    · rename_i head r2 heq
      cases hm
      have h2 := congrArg List.length heq
      simp only [List.length_cons] at h2
      simp only [List.length_cons]
      omega
    · cases hm
  · simp

/-- Global replacement `/\s+/g` by a single space. -/
def collapseWs : List Char → List Char
  | [] => []
  | c :: rest =>
    if isJsSpace c then ' ' :: collapseWs (rest.dropWhile isJsSpace)
    else c :: collapseWs rest
termination_by l => l.length
decreasing_by
  · have := (List.dropWhile_sublist (l := rest) isJsSpace).length_le
    simp
    omega
  · simp

/-- JavaScript `String.prototype.trim` (drop `\s` from both ends). -/
def trimJs (l : List Char) : List Char :=
  ((l.dropWhile isJsSpace).reverse.dropWhile isJsSpace).reverse

/-- `stripHtml` of route.ts lines 60-70 (and the identical helper in
`functions/api/analyze-sentiment.ts`): `if (!html) return ''`, replace
`<p>` and `<br ...>` by spaces, delete remaining tags, collapse
whitespace, trim. -/
def stripHtml (html : String) : String :=
  if html = "" then ""
  else String.mk (trimJs (collapseWs (stripTags (replaceBrTags (replacePTags html.data)))))

/-- JavaScript `String.prototype.toUpperCase` on the ASCII range. -/
def jsToUpperCase (s : String) : String := String.mk (s.data.map Char.toUpper)

/-- Does `pat` occur as a leading segment of `l`? (helper for
JavaScript `String.prototype.includes`). -/
def startsWithChars : List Char → List Char → Bool
  | [], _ => true
  | _ :: _, [] => false
  | p :: ps, c :: cs => p = c && startsWithChars ps cs

/-- JavaScript `sub`-in-`s` test `s.includes(sub)`. -/
def strIncludes (s sub : String) : Bool :=
  go s.data
where
  go : List Char → Bool
    | [] => sub.data.isEmpty
    | c :: cs => startsWithChars sub.data (c :: cs) || go cs

/-! ## Data model -/

/-- A Mastodon status as used by the handlers.  `instance_domain` is
`none` in raw source payloads and set by the aggregator. -/
structure MastodonStatus where
  id : String
  created_at : String
  content : String
  url : String
  acct : String
  instance_domain : Option String
deriving DecidableEq

/-- Output item of the Workers AI text-classification model:
a label and a confidence score. -/
structure AiOutput where
  label : String
  score : ℚ
deriving DecidableEq

/-- A non-null entry of the analyze-sentiment response. -/
structure SentimentResult where
  originalTextIndex : Nat
  label : String
  score : ℚ
deriving DecidableEq

/-- The three sentiment categories tallied by the pipeline. -/
inductive Sentiment where
  | positive
  | negative
  | neutral
deriving DecidableEq

structure SentimentCounts where
  positive : Nat
  negative : Nat
  neutral : Nat
deriving DecidableEq

structure SentimentAnalysisData where
  positivePercentage : Nat
  negativePercentage : Nat
  neutralPercentage : Nat
  totalAnalyzed : Nat
  counts : SentimentCounts
deriving DecidableEq

/-! ## Sentiment summarisation -/

/-- The JavaScript reduce
`results.reduce((prev, current) => (prev.score > current.score) ? prev : current)`
on a non-empty array `h :: t` (reduce without an initial value starts the
accumulator at the first element). -/
def pickTopFrom (h : AiOutput) (t : List AiOutput) : AiOutput :=
  t.foldl (fun prev current => if prev.score > current.score then prev else current) h

/-- The fixed label-interpretation rule of route.ts lines 213-216 (identical
in every variant): upper-case the label; a label containing `POSITIVE` or
equal to `LABEL_1` is positive, else one containing `NEGATIVE` or equal to
`LABEL_0` is negative, else neutral. -/
def labelCategory (rawLabel : String) : Sentiment :=
  let label := jsToUpperCase rawLabel
  if strIncludes label "POSITIVE" || label = "LABEL_1" then .positive
  else if strIncludes label "NEGATIVE" || label = "LABEL_0" then .negative
  else .neutral

/-- The label-mapping rule as worded by the spec (section 4.4): interpret
the top-scoring label via a fixed mapping -- `label contains "POSITIVE"`
or the positional alias `LABEL_1` means positive; `"NEGATIVE"` or alias
`LABEL_0` means negative; anything else neutral.  Stated separately from
`labelCategory` so the code rule can be compared against the spec rule. -/
def labelRuleSpec (rawLabel : String) : Sentiment :=
  let label := jsToUpperCase rawLabel
  if strIncludes label "POSITIVE" || label = "LABEL_1" then .positive
  else if strIncludes label "NEGATIVE" || label = "LABEL_0" then .negative
  else .neutral

/-- `Math.round((count / total) * 100)` for `total > 0`, in exact
arithmetic: `floor (100 * count / total + 1 / 2) = (200 * count + total) / (2 * total)`
using natural division. -/
def jsRoundPct (count total : Nat) : Nat :=
  (200 * count + total) / (2 * total)

/-- The `sentimentAnalysis` record construction shared by every variant
(route.ts lines 222-228 and 422-428): each percentage is
`totalAnalyzed > 0 ? Math.round((count / totalAnalyzed) * 100) : 0`. -/
def mkSentimentData (counts : SentimentCounts) (totalAnalyzed : Nat) : SentimentAnalysisData :=
  { positivePercentage := if totalAnalyzed > 0 then jsRoundPct counts.positive totalAnalyzed else 0
    negativePercentage := if totalAnalyzed > 0 then jsRoundPct counts.negative totalAnalyzed else 0
    neutralPercentage := if totalAnalyzed > 0 then jsRoundPct counts.neutral totalAnalyzed else 0
    totalAnalyzed := totalAnalyzed
    counts := counts }

/-- The default (all-zero) `sentimentAnalysis` value used when the
sentiment step is skipped or fails (route.ts lines 178-181). -/
def defaultSentimentData : SentimentAnalysisData :=
  { positivePercentage := 0, negativePercentage := 0, neutralPercentage := 0
    totalAnalyzed := 0, counts := ⟨0, 0, 0⟩ }

/-- One step of the `sentimentResults.forEach` loop of route.ts lines
211-219: a null result leaves the accumulator unchanged; a non-null
result bumps exactly one counter and `totalAnalyzed`. -/
def tallyStep (acc : SentimentCounts × Nat) (res : Option SentimentResult) :
    SentimentCounts × Nat :=
  match res with
  | none => acc
  | some r =>
    match labelCategory r.label with
    | .positive => (⟨acc.1.positive + 1, acc.1.negative, acc.1.neutral⟩, acc.2 + 1)
    | .negative => (⟨acc.1.positive, acc.1.negative + 1, acc.1.neutral⟩, acc.2 + 1)
    | .neutral => (⟨acc.1.positive, acc.1.negative, acc.1.neutral + 1⟩, acc.2 + 1)

/-- The counting loop of route.ts lines 208-220 over the analyze-sentiment
results: returns (`sentimentCounts`, `totalAnalyzed`). -/
def tallyResults (rs : List (Option SentimentResult)) : SentimentCounts × Nat :=
  rs.foldl tallyStep (⟨0, 0, 0⟩, 0)

/-- One step of the `for (const label of analysis)` loop of route.ts
lines 412-417 (inline-AI variant), where classification already yielded
`Option Sentiment` values. -/
def tallyLabelStep (acc : SentimentCounts × Nat) (res : Option Sentiment) :
    SentimentCounts × Nat :=
  match res with
  | none => acc
  | some .positive => (⟨acc.1.positive + 1, acc.1.negative, acc.1.neutral⟩, acc.2 + 1)
  | some .negative => (⟨acc.1.positive, acc.1.negative + 1, acc.1.neutral⟩, acc.2 + 1)
  | some .neutral => (⟨acc.1.positive, acc.1.negative, acc.1.neutral + 1⟩, acc.2 + 1)

/-- The counting loop of route.ts lines 412-417. -/
def tallyLabels (ls : List (Option Sentiment)) : SentimentCounts × Nat :=
  ls.foldl tallyLabelStep (⟨0, 0, 0⟩, 0)

/-! ## The analyze-sentiment Pages Function
(`functions/api/analyze-sentiment.ts`, `onRequestPost`). -/

/-- Outcome of one `env.AI.run` call, supplied as an oracle:
the call can throw, return null, or return an array of outputs. -/
inductive AiRunOutcome where
  | throws
  | nullResp
  | outputs (items : List AiOutput)

/-- The length gate of `analyze-sentiment` line 334:
`textToAnalyze.length < 10 || textToAnalyze.length > 512`. -/
def analyzeLengthSkip (cleanLen : Nat) : Bool :=
  decide (cleanLen < 10) || decide (cleanLen > 512)

/-- The length gate of the inline-AI route variant (route.ts line 395):
`cleanText.length < 10 || cleanText.length > 500`. -/
def routeInlineLengthSkip (cleanLen : Nat) : Bool :=
  decide (cleanLen < 10) || decide (cleanLen > 500)

/-- The per-text closure of `analyze-sentiment` lines 330-362: strip
markup, skip out-of-band lengths, run the classifier (any throw or
null/empty response yields null), otherwise keep the top-scoring label
together with the original index. -/
def analyzeOne (ai : String → AiRunOutcome) (index : Nat) (rawText : String) :
    Option SentimentResult :=
  let textToAnalyze := stripHtml rawText
  if analyzeLengthSkip textToAnalyze.length then none
  else
    match ai textToAnalyze with
    | .throws => none
    | .nullResp => none
    | .outputs [] => none
    | .outputs (h :: t) =>
      let topResult := pickTopFrom h t
      some ⟨index, topResult.label, topResult.score⟩

/-- `texts.map(async (rawText, index) => ...)` then `Promise.all`:
positional map carrying the running index. -/
def analyzeTextsFrom (ai : String → AiRunOutcome) (index : Nat) :
    List String → List (Option SentimentResult)
  | [] => []
  | t :: ts => analyzeOne ai index t :: analyzeTextsFrom ai (index + 1) ts

/-- Outcome of `request.json()` for the analyze-sentiment endpoint:
it can throw a `SyntaxError`, throw some other error, or parse; a parsed
body whose `texts` member is not an array is modelled as `parsed none`. -/
inductive RequestBodyOutcome where
  | throwsSyntax
  | throwsOther
  | parsed (texts : Option (List String))

/-- The `onRequestPost` handler of `functions/api/analyze-sentiment.ts`
(first variant, lines 293-387): 500 when the AI binding is absent, 400 on
bad JSON or a missing/empty `texts` array, 400 when more than 50 texts,
otherwise the positional list of per-text results. -/
def onRequestPostAnalyze (aiPresent : Bool) (ai : String → AiRunOutcome)
    (body : RequestBodyOutcome) : Except (Nat × String) (List (Option SentimentResult)) :=
  if !aiPresent then .error (500, "AI service not configured")
  else
    match body with
    | .throwsSyntax => .error (400, "Invalid JSON in request body")
    | .throwsOther => .error (500, "Failed to analyze sentiment")
    | .parsed none =>
      .error (400, "Invalid input: texts array is required and cannot be empty")
    | .parsed (some texts) =>
      if texts.length = 0 then
        .error (400, "Invalid input: texts array is required and cannot be empty")
      else if texts.length > 50 then
        .error (400, "Too many texts to analyze. Limit is 50.")
      else .ok (analyzeTextsFrom ai 0 texts)

/-! ## The Source Client (per-instance fetch) -/

/-- A resolved HTTP response, as far as the handlers inspect it:
`response.ok`, the `content-type` header, and the result of
`response.json()` (which can throw on a malformed body). -/
structure HttpResponse where
  ok : Bool
  contentType : Option String
  body : Except Unit (List MastodonStatus)

/-- Outcome of one outbound `fetch` to an instance, supplied as an
oracle: either the promise rejects (network/transport error) or a
response arrives. -/
inductive FetchOutcome where
  | transportError
  | response (r : HttpResponse)

/-- `!contentType || !contentType.includes('application/json')`
(route.ts lines 151-155). -/
def ctIncludesJson (ct : Option String) : Bool :=
  match ct with
  | none => false
  | some s => strIncludes s "application/json"

/-- The fetch options used for every Source Client call (route.ts lines
142-146): an `Accept: application/json` header and nothing else.  The
`AbortSignal.timeout(5000)` line in the source is commented out, which
this record makes explicit as `timeoutMs := none`.  The Pages-function
variants pass the same header-only options object. -/
structure SourceFetchInit where
  acceptJsonHeader : Bool
  timeoutMs : Option Nat
deriving DecidableEq

def sourceFetchInit : SourceFetchInit :=
  { acceptJsonHeader := true, timeoutMs := none }

/-- The per-domain fetch closure of route.ts lines 138-162: non-2xx,
missing/non-JSON content type, a rejected fetch, or a throwing
`response.json()` all yield `[]`; a good response yields the statuses
with `instance_domain` set to the domain. -/
def fetchInstance (domain : String) (o : FetchOutcome) : List MastodonStatus :=
  match o with
  | .transportError => []
  | .response r =>
    if !r.ok then []
    else if !ctIncludesJson r.contentType then []
    else
      match r.body with
      | .error _ => []
      | .ok statuses => statuses.map (fun s => { s with instance_domain := some domain })

/-- The per-domain fetch closure of `functions/api/timeline/[region].ts`
lines 83-98, which checks only `response.ok` (no content-type check)
before `response.json()`. -/
def fetchInstancePages (domain : String) (o : FetchOutcome) : List MastodonStatus :=
  match o with
  | .transportError => []
  | .response r =>
    if !r.ok then []
    else
      match r.body with
      | .error _ => []
      | .ok statuses => statuses.map (fun s => { s with instance_domain := some domain })

/-! ## Merge, sort, truncate -/

/-- `combinedStatuses.sort((a, b) => new Date(b.created_at).getTime() -
new Date(a.created_at).getTime())`: a stable sort placing `a` before `b`
when `getTime b.created_at ≤ getTime a.created_at`, where `getTime` is
the `Date`-parsing oracle returning a numeric timestamp. -/
def sortStatusesDesc (getTime : String → Int) (l : List MastodonStatus) :
    List MastodonStatus :=
  l.mergeSort (fun a b => decide (getTime b.created_at ≤ getTime a.created_at))

/-- `results.flat()`, the descending sort, and `slice(0, 50)`
(route.ts lines 164-171). -/
def aggregateStatuses (getTime : String → Int) (results : List (List MastodonStatus)) :
    List MastodonStatus :=
  (sortStatusesDesc getTime results.flatten).take 50

/-! ## Region configuration -/

/-- The externally-provided `REGIONS_JSON` environment value as the
handler observes it: absent or empty, present but failing `JSON.parse`,
or parsed into an object mapping region codes to comma-separated
instance-domain strings (the parsed object is modelled as its lookup
function). -/
inductive ConfigInput where
  | missing
  | invalid
  | valid (config : String → Option String)

/-- JavaScript `String.prototype.split(',')`: cut the character list at
every comma; consecutive commas produce empty segments and the empty
string yields one empty segment. -/
def splitOnComma : List Char → List (List Char)
  | [] => [[]]
  | c :: rest =>
    if c = ',' then [] :: splitOnComma rest
    else
      match splitOnComma rest with
      | g :: gs => (c :: g) :: gs
      | [] => [[c]]

/-- `instancesString.split(',').map(d => d.trim()).filter(Boolean)`
(route.ts lines 111-113). -/
def parseInstances (s : String) : List String :=
  ((splitOnComma s.data).map (fun d => String.mk (trimJs d))).filter (fun d => d ≠ "")

/-! ## The Next.js route handler (route.ts, first variant, lines 79-256) -/

/-- Outcome of the `POST /api/analyze-sentiment` call made by the route
handler, supplied as an oracle over the texts sent: `failure` covers a
non-2xx status, a thrown fetch/json, and a body without a
`sentimentResults` array (all of which leave the default zero tally);
`success` carries the parsed `sentimentResults`. -/
inductive AnalyzeOutcome where
  | failure
  | success (sentimentResults : List (Option SentimentResult))

/-- The sentiment aggregation of route.ts lines 199-230 given the
analyze-call outcome. -/
def sentimentForOutcome (o : AnalyzeOutcome) : SentimentAnalysisData :=
  match o with
  | .failure => defaultSentimentData
  | .success rs =>
    let t := tallyResults rs
    mkSentimentData t.1 t.2

/-- Result of the route handler: an error response
`NextResponse.json({error}, {status})` or the success payload
`{timeline, sentimentAnalysis}`. -/
inductive ApiResult where
  | error (status : Nat) (message : String)
  | success (timeline : List MastodonStatus) (sentimentAnalysis : SentimentAnalysisData)
deriving DecidableEq

/-- HTTP status of an `ApiResult` (success responses are 200). -/
def statusOf : ApiResult → Nat
  | .error s _ => s
  | .success _ _ => 200

/-- The `GET` handler of route.ts (first variant, lines 79-256):
upper-case the region; 500 on missing/empty or unparseable
`REGIONS_JSON`; 404 when the region is absent from the config or maps to
the empty string; 400 when the instance list is empty after
split/trim/filter; otherwise fetch all instances, merge, sort
by numeric timestamp descending, truncate to 50, attach the sentiment
tally (skipped when no statuses were fetched), and answer 200. -/
def handleTimelineGET (getTime : String → Int) (cfg : ConfigInput)
    (regionParam : String) (fetches : String → FetchOutcome)
    (analyze : List String → AnalyzeOutcome) : ApiResult :=
  let region := jsToUpperCase regionParam
  match cfg with
  | .missing => .error 500 "Server configuration error: REGIONS_JSON missing or empty"
  | .invalid => .error 500 "Server configuration error: REGIONS_JSON invalid format"
  | .valid config =>
    match config region with
    | none => .error 404 ("No instances configured for region: " ++ region)
    | some instancesString =>
      if instancesString = "" then
        .error 404 ("No instances configured for region: " ++ region)
      else
        let instanceDomains := parseInstances instancesString
        if instanceDomains = [] then
          .error 400 ("No valid instances found for region: " ++ region)
        else
          let results := instanceDomains.map (fun d => fetchInstance d (fetches d))
          let combinedStatuses := aggregateStatuses getTime results
          let sentimentAnalysis :=
            if combinedStatuses.length > 0 then
              sentimentForOutcome
                (analyze (combinedStatuses.map (fun st => stripHtml st.content)))
            else defaultSentimentData
          .success combinedStatuses sentimentAnalysis

/-! ## The inline-AI route variant (route.ts, second variant, lines 318-434) -/

/-- The per-status classification closure of route.ts lines 393-409:
strip markup, skip lengths outside 10-500, run the bound AI model (throw,
null and empty responses yield null), and map the top label through the
fixed rule. -/
def routeInlineClassifyOne (ai : String → AiRunOutcome) (status : MastodonStatus) :
    Option Sentiment :=
  let cleanText := stripHtml status.content
  if routeInlineLengthSkip cleanText.length then none
  else
    match ai cleanText with
    | .throws => none
    | .nullResp => none
    | .outputs [] => none
    | .outputs (h :: t) => some (labelCategory (pickTopFrom h t).label)

/-- `combinedStatuses.map(async status => ...)` of the inline-AI variant. -/
def routeInlineAnalysis (ai : String → AiRunOutcome) (statuses : List MastodonStatus) :
    List (Option Sentiment) :=
  statuses.map (routeInlineClassifyOne ai)

/-! ## The Pages Function `onRequestGet`
(`functions/api/timeline/[region].ts`, first variant, lines 31-124). -/

/-- Response of the Pages timeline function: a cache hit returns the
stored string verbatim; configuration problems return an error status; a
rebuilt timeline returns the (possibly empty) status list, serialized by
`JSON.stringify`. -/
inductive PagesResponse where
  | cachedHit (body : String)
  | configError (status : Nat) (message : String)
  | freshTimeline (statuses : List MastodonStatus)
deriving DecidableEq

/-- Observable output of the Pages function: the response plus the list
of KV writes scheduled through `waitUntil` as (key, value, TTL seconds)
triples. -/
structure PagesGetOutput where
  response : PagesResponse
  cacheWrites : List (String × String × Nat)
deriving DecidableEq

/-- The `onRequestGet` handler of `functions/api/timeline/[region].ts`
(first variant, lines 31-124).  Oracles: `getTime` for `Date` parsing,
`serialize` for `JSON.stringify` of a status list, `kvGet` for the KV
read (`.error` models a thrown read, which is caught and treated as a
miss), `fetches` for the instance fetches.  `putFails` models whether the
fire-and-forget KV write would fail; the write is scheduled via
`waitUntil` with its own `.catch`, so the handler output never consults
it. -/
def onRequestGetTimeline (getTime : String → Int)
    (serialize : List MastodonStatus → String)
    (kvGet : Except Unit (Option String)) (cfg : ConfigInput)
    (regionParam : String) (fetches : String → FetchOutcome)
    (putFails : Bool) : PagesGetOutput :=
  let region := jsToUpperCase regionParam
  let cacheKey := "timeline:" ++ region ++ ":notranslation"
  match kvGet with
  | .ok (some cachedData) => { response := .cachedHit cachedData, cacheWrites := [] }
  | _ =>
    match cfg with
    | .missing =>
      { response := .configError 500 "Server configuration error (regions missing)"
        cacheWrites := [] }
    | .invalid =>
      { response := .configError 500 "Server configuration error (regions invalid)"
        cacheWrites := [] }
    | .valid config =>
      match config region with
      | none =>
        { response := .configError 404 ("No instances configured for region: " ++ region)
          cacheWrites := [] }
      | some instancesString =>
        if instancesString = "" then
          { response := .configError 404 ("No instances configured for region: " ++ region)
            cacheWrites := [] }
        else
          let instanceDomains := parseInstances instancesString
          if instanceDomains = [] then
            { response := .configError 400 ("No valid instances found for region: " ++ region)
              cacheWrites := [] }
          else
            let results := instanceDomains.map (fun d => fetchInstancePages d (fetches d))
            let combinedStatuses := aggregateStatuses getTime results
            if combinedStatuses.length > 0 then
              { response := .freshTimeline combinedStatuses
                cacheWrites := [(cacheKey, serialize combinedStatuses, 300)] }
            else
              { response := .freshTimeline [], cacheWrites := [] }

/-- All-`'a'` test text of length `n`, used as concrete input for the
length-band results. -/
def aText (n : Nat) : String := String.mk (List.replicate n 'a')

/-! ## Helper lemmas -/

theorem parseInstances_empty : parseInstances "" = [] := by decide

theorem parseInstances_ne_empty_string {s : String} (h : parseInstances s ≠ []) :
    s ≠ "" := by
  intro he
  rw [he, parseInstances_empty] at h
  exact h rfl

theorem dropWhile_eq_self_of_all {p : Char → Bool} :
    ∀ l : List Char, (∀ c ∈ l, p c = false) → l.dropWhile p = l := by
  intro l h
  cases l with
  | nil => rfl
  | cons c rest =>
    rw [List.dropWhile_cons_of_neg]
    simp [h c (List.mem_cons_self _ _)]

theorem replacePTags_of_no_lt : ∀ l : List Char, '<' ∉ l → replacePTags l = l := by
  intro l
  induction l using replacePTags.induct with
  | case1 c rest h ih =>
    intro hmem
    simp at hmem
  | case2 c rest h ih =>
    intro hmem
    simp at hmem
  | case3 c rest ih =>
    intro hmem
    have hc : c ≠ '<' := by
      intro he
      exact hmem (he ▸ List.mem_cons_self _ _)
    have hrest : '<' ∉ rest := fun hr => hmem (List.mem_cons_of_mem _ hr)
    rename_i ihr
    rw [replacePTags.eq_def]
    split
    · rename_i c2 rest2 heq
      rw [List.cons.injEq] at heq
      exact absurd heq.1 hc
    · rename_i c2 rest2 heq
      rw [List.cons.injEq] at heq
      obtain ⟨rfl, rfl⟩ := heq
      rw [ihr hrest]
    · rename_i heq
      cases heq
  | case4 => intro _; rfl

theorem replaceBrTags_of_no_lt : ∀ l : List Char, '<' ∉ l → replaceBrTags l = l := by
  intro l
  induction l using replaceBrTags.induct with
  | case1 b r rest h hm rest2 ih =>
    intro hmem
    simp at hmem
  | case2 b r rest h hm ih =>
    intro hmem
    simp at hmem
  | case3 b r rest h ih =>
    intro hmem
    simp at hmem
  | case4 c rest hno ih =>
    intro hmem
    have hc : c ≠ '<' := by
      intro he
      exact hmem (he ▸ List.mem_cons_self _ _)
    have hrest : '<' ∉ rest := fun hr => hmem (List.mem_cons_of_mem _ hr)
    rw [replaceBrTags.eq_def]
    split
    · rename_i b r rest2 heq
      rw [List.cons.injEq] at heq
      exact absurd heq.1 hc
    · rename_i c2 rest2 heq
      rw [List.cons.injEq] at heq
      obtain ⟨rfl, rfl⟩ := heq
      rw [ih hrest]
    · rename_i heq
      cases heq
  | case5 =>
    intro _
    rw [replaceBrTags.eq_def]

theorem stripTags_of_no_lt : ∀ l : List Char, '<' ∉ l → stripTags l = l := by
  intro l
  induction l using stripTags.induct with
  | case1 rest hm rest2 ih =>
    intro hmem
    simp at hmem
  | case2 rest hm =>
    intro hmem
    simp at hmem
  | case3 c rest hno ih =>
    intro hmem
    have hc : c ≠ '<' := by
      intro he
      exact hmem (he ▸ List.mem_cons_self _ _)
    have hrest : '<' ∉ rest := fun hr => hmem (List.mem_cons_of_mem _ hr)
    rw [stripTags.eq_def]
    split
    · rename_i rest2 heq
      rw [List.cons.injEq] at heq
      exact absurd heq.1 hc
    · rename_i c2 rest2 heq
      rw [List.cons.injEq] at heq
      obtain ⟨rfl, rfl⟩ := heq
      rw [ih hrest]
    · rename_i heq
      cases heq
  | case4 =>
    intro _
    rw [stripTags.eq_def]

theorem collapseWs_of_no_space : ∀ l : List Char,
    (∀ c ∈ l, isJsSpace c = false) → collapseWs l = l := by
  intro l
  induction l with
  | nil =>
    intro _
    rw [collapseWs.eq_def]
  | cons c rest ih =>
    intro h
    have hc := h c (List.mem_cons_self _ _)
    rw [collapseWs.eq_def]
    split
    · rename_i heq
      cases heq
    · rename_i c2 rest2 heq
      rw [List.cons.injEq] at heq
      obtain ⟨rfl, rfl⟩ := heq
      rw [if_neg (by simp [hc])]
      rw [ih (fun x hx => h x (List.mem_cons_of_mem _ hx))]

theorem trimJs_of_no_space (l : List Char) (h : ∀ c ∈ l, isJsSpace c = false) :
    trimJs l = l := by
  unfold trimJs
  rw [dropWhile_eq_self_of_all l h]
  rw [dropWhile_eq_self_of_all l.reverse (fun c hc => h c (List.mem_reverse.mp hc))]
  exact List.reverse_reverse l

theorem stripHtml_replicate (c : Char) (n : Nat) (hn : 0 < n) (hlt : c ≠ '<')
    (hsp : isJsSpace c = false) :
    stripHtml (String.mk (List.replicate n c)) = String.mk (List.replicate n c) := by
  have hmem : '<' ∉ List.replicate n c := by
    intro hm
    exact hlt (List.eq_of_mem_replicate hm).symm
  have hall : ∀ x ∈ List.replicate n c, isJsSpace x = false := by
    intro x hx
    rw [List.eq_of_mem_replicate hx]
    exact hsp
  unfold stripHtml
  rw [if_neg ?hne]
  case hne =>
    intro he
    have hd : List.replicate n c = [] := by
      have := congrArg String.data he
      simpa using this
    rw [List.replicate_eq_nil_iff] at hd
    omega
  rw [show (String.mk (List.replicate n c)).data = List.replicate n c from rfl]
  rw [replacePTags_of_no_lt _ hmem, replaceBrTags_of_no_lt _ hmem, stripTags_of_no_lt _ hmem,
      collapseWs_of_no_space _ hall, trimJs_of_no_space _ hall]

theorem length_mk_replicate (c : Char) (n : Nat) :
    (String.mk (List.replicate n c)).length = n := by
  simp [String.length]

theorem tallyStep_sum (acc : SentimentCounts × Nat) (res : Option SentimentResult)
    (h : acc.1.positive + acc.1.negative + acc.1.neutral = acc.2) :
    (tallyStep acc res).1.positive + (tallyStep acc res).1.negative
      + (tallyStep acc res).1.neutral = (tallyStep acc res).2 := by
  cases res with
  | none => simpa [tallyStep] using h
  | some r =>
    cases hl : labelCategory r.label <;> simp [tallyStep, hl] <;> omega

theorem tallyResults_go (rs : List (Option SentimentResult)) :
    ∀ acc : SentimentCounts × Nat,
      acc.1.positive + acc.1.negative + acc.1.neutral = acc.2 →
      (rs.foldl tallyStep acc).1.positive + (rs.foldl tallyStep acc).1.negative
        + (rs.foldl tallyStep acc).1.neutral = (rs.foldl tallyStep acc).2 := by
  induction rs with
  | nil => intro acc h; simpa using h
  | cons r rs ih =>
    intro acc h
    simpa [List.foldl_cons] using ih (tallyStep acc r) (tallyStep_sum acc r h)

theorem tallyLabelStep_sum (acc : SentimentCounts × Nat) (res : Option Sentiment)
    (h : acc.1.positive + acc.1.negative + acc.1.neutral = acc.2) :
    (tallyLabelStep acc res).1.positive + (tallyLabelStep acc res).1.negative
      + (tallyLabelStep acc res).1.neutral = (tallyLabelStep acc res).2 := by
  cases res with
  | none => simpa [tallyLabelStep] using h
  | some sen => cases sen <;> simp [tallyLabelStep] <;> omega

theorem tallyLabels_go (ls : List (Option Sentiment)) :
    ∀ acc : SentimentCounts × Nat,
      acc.1.positive + acc.1.negative + acc.1.neutral = acc.2 →
      (ls.foldl tallyLabelStep acc).1.positive + (ls.foldl tallyLabelStep acc).1.negative
        + (ls.foldl tallyLabelStep acc).1.neutral = (ls.foldl tallyLabelStep acc).2 := by
  induction ls with
  | nil => intro acc h; simpa using h
  | cons r ls ih =>
    intro acc h
    simpa [List.foldl_cons] using ih (tallyLabelStep acc r) (tallyLabelStep_sum acc r h)

/-! ## Claim theorems -/

/-- C6: in every sentiment tally produced by the pipeline (both the
`forEach` loop over analyze-sentiment results and the `for ... of` loop of
the inline-AI variant), `counts.positive + counts.negative +
counts.neutral = totalAnalyzed`: each non-null item bumps exactly one
counter, and null (skipped or failed) items bump nothing. -/
theorem tally_counts_sum_eq_totalAnalyzed (rs : List (Option SentimentResult))
    (ls : List (Option Sentiment)) :
    ((tallyResults rs).1.positive + (tallyResults rs).1.negative
      + (tallyResults rs).1.neutral = (tallyResults rs).2)
    ∧ ((tallyLabels ls).1.positive + (tallyLabels ls).1.negative
      + (tallyLabels ls).1.neutral = (tallyLabels ls).2) :=
  ⟨tallyResults_go rs (⟨0, 0, 0⟩, 0) rfl, tallyLabels_go ls (⟨0, 0, 0⟩, 0) rfl⟩

/-- C4 counterexample: the claim says every outbound Source Client fetch
is bounded by a per-call timeout, but the fetch options used by the
handlers configure no timeout at all (the `AbortSignal.timeout(5000)`
line at route.ts line 145 is commented out, and the Pages-function
variants pass only the `Accept` header). -/
theorem source_fetch_has_no_timeout : ¬ ∃ t : Nat, sourceFetchInit.timeoutMs = some t := by
  intro h
  obtain ⟨t, ht⟩ := h
  simp [sourceFetchInit] at ht

/-- C4 amended: outbound Source Client fetches are issued with only an
`Accept: application/json` header and no per-call timeout; nothing bounds
the duration of a call to an unresponsive instance. -/
theorem source_fetch_init_header_only :
    sourceFetchInit = { acceptJsonHeader := true, timeoutMs := none } := rfl

theorem jsRoundPct_sum_bounds (p n u T : Nat) (hT : 0 < T) (hsum : p + n + u = T) :
    99 ≤ jsRoundPct p T + jsRoundPct n T + jsRoundPct u T ∧
      jsRoundPct p T + jsRoundPct n T + jsRoundPct u T ≤ 101 := by
  have hT2 : 0 < 2 * T := by omega
  have h1p := Nat.div_mul_le_self (200 * p + T) (2 * T)
  have h1n := Nat.div_mul_le_self (200 * n + T) (2 * T)
  have h1u := Nat.div_mul_le_self (200 * u + T) (2 * T)
  have h2p : 200 * p + T < ((200 * p + T) / (2 * T) + 1) * (2 * T) :=
    (Nat.div_lt_iff_lt_mul hT2).mp (Nat.lt_succ_self _)
  have h2n : 200 * n + T < ((200 * n + T) / (2 * T) + 1) * (2 * T) :=
    (Nat.div_lt_iff_lt_mul hT2).mp (Nat.lt_succ_self _)
  have h2u : 200 * u + T < ((200 * u + T) / (2 * T) + 1) * (2 * T) :=
    (Nat.div_lt_iff_lt_mul hT2).mp (Nat.lt_succ_self _)
  unfold jsRoundPct
  generalize hfp : (200 * p + T) / (2 * T) = fp at h1p h2p ⊢
  generalize hfn : (200 * n + T) / (2 * T) = fn at h1n h2n ⊢
  generalize hfu : (200 * u + T) / (2 * T) = fu at h1u h2u ⊢
  have e2p : (fp + 1) * (2 * T) = fp * (2 * T) + 2 * T := by ring
  have e2n : (fn + 1) * (2 * T) = fn * (2 * T) + 2 * T := by ring
  have e2u : (fu + 1) * (2 * T) = fu * (2 * T) + 2 * T := by ring
  rw [e2p] at h2p
  rw [e2n] at h2n
  rw [e2u] at h2u
  have hSlo : (fp + fn + fu) * (2 * T) = fp * (2 * T) + fn * (2 * T) + fu * (2 * T) := by
    ring
  generalize hA : fp * (2 * T) = A at h1p h2p hSlo
  generalize hB : fn * (2 * T) = B at h1n h2n hSlo
  generalize hC : fu * (2 * T) = C at h1u h2u hSlo
  constructor
  · by_contra hc
    push_neg at hc
    have h98 : fp + fn + fu ≤ 98 := by omega
    have hm : (fp + fn + fu) * (2 * T) ≤ 98 * (2 * T) :=
      Nat.mul_le_mul_right _ h98
    rw [hSlo] at hm
    omega
  · by_contra hc
    push_neg at hc
    have h102 : 102 ≤ fp + fn + fu := by omega
    have hm : 102 * (2 * T) ≤ (fp + fn + fu) * (2 * T) :=
      Nat.mul_le_mul_right _ h102
    rw [hSlo] at hm
    omega

theorem pickTopFrom_spec (t : List AiOutput) :
    ∀ h : AiOutput, pickTopFrom h t ∈ h :: t ∧
      ∀ x ∈ h :: t, x.score ≤ (pickTopFrom h t).score := by
  induction t with
  | nil =>
    intro h
    simp [pickTopFrom]
  | cons c t ih =>
    intro h
    by_cases hsc : h.score > c.score
    · have step : pickTopFrom h (c :: t) = pickTopFrom h t := by
        simp [pickTopFrom, hsc]
      obtain ⟨hmem, hmax⟩ := ih h
      rw [step]
      refine ⟨?_, ?_⟩
      · rcases List.mem_cons.mp hmem with he | ht
        · simp [he]
        · simp [List.mem_cons, Or.inr (Or.inr ht)]
      · intro x hx
        rcases List.mem_cons.mp hx with rfl | hx2
        · exact hmax _ (List.mem_cons_self _ _)
        · rcases List.mem_cons.mp hx2 with rfl | hxt
          · exact le_trans (le_of_lt hsc) (hmax _ (List.mem_cons_self _ _))
          · exact hmax _ (List.mem_cons_of_mem _ hxt)
    · have step : pickTopFrom h (c :: t) = pickTopFrom c t := by
        simp [pickTopFrom, hsc]
      obtain ⟨hmem, hmax⟩ := ih c
      rw [step]
      refine ⟨?_, ?_⟩
      · rcases List.mem_cons.mp hmem with he | ht
        · simp [he]
        · simp [List.mem_cons, Or.inr (Or.inr ht)]
      · intro x hx
        rcases List.mem_cons.mp hx with rfl | hx2
        · exact le_trans (le_of_not_lt hsc) (hmax _ (List.mem_cons_self _ _))
        · rcases List.mem_cons.mp hx2 with rfl | hxt
          · exact hmax _ (List.mem_cons_self _ _)
          · exact hmax _ (List.mem_cons_of_mem _ hxt)

/-- C5: for every sentiment record the route handler can produce from an
analyze-call outcome: when `totalAnalyzed = 0` all three percentages and
all three counts are 0; when `totalAnalyzed > 0` each percentage is the
rounded `100 * count / totalAnalyzed` and the three percentages sum to a
value in `[99, 101]`. -/
theorem sentiment_percentages_sound (o : AnalyzeOutcome) :
    ((sentimentForOutcome o).totalAnalyzed = 0 →
      (sentimentForOutcome o).positivePercentage = 0
      ∧ (sentimentForOutcome o).negativePercentage = 0
      ∧ (sentimentForOutcome o).neutralPercentage = 0
      ∧ (sentimentForOutcome o).counts.positive = 0
      ∧ (sentimentForOutcome o).counts.negative = 0
      ∧ (sentimentForOutcome o).counts.neutral = 0)
    ∧ (0 < (sentimentForOutcome o).totalAnalyzed →
      (sentimentForOutcome o).positivePercentage
        = jsRoundPct (sentimentForOutcome o).counts.positive (sentimentForOutcome o).totalAnalyzed
      ∧ (sentimentForOutcome o).negativePercentage
        = jsRoundPct (sentimentForOutcome o).counts.negative (sentimentForOutcome o).totalAnalyzed
      ∧ (sentimentForOutcome o).neutralPercentage
        = jsRoundPct (sentimentForOutcome o).counts.neutral (sentimentForOutcome o).totalAnalyzed
      ∧ 99 ≤ (sentimentForOutcome o).positivePercentage
          + (sentimentForOutcome o).negativePercentage
          + (sentimentForOutcome o).neutralPercentage
      ∧ (sentimentForOutcome o).positivePercentage
          + (sentimentForOutcome o).negativePercentage
          + (sentimentForOutcome o).neutralPercentage ≤ 101) := by
  cases o with
  | failure =>
    constructor
    · intro _
      simp [sentimentForOutcome, defaultSentimentData]
    · intro h
      simp [sentimentForOutcome, defaultSentimentData] at h
  | success rs =>
    have hsum : (tallyResults rs).1.positive + (tallyResults rs).1.negative
        + (tallyResults rs).1.neutral = (tallyResults rs).2 :=
      tallyResults_go rs (⟨0, 0, 0⟩, 0) rfl
    constructor
    · intro h0
      have h0' : (tallyResults rs).2 = 0 := h0
      refine ⟨?_, ?_, ?_, ?_, ?_, ?_⟩ <;>
        simp [sentimentForOutcome, mkSentimentData, h0'] <;> omega
    · intro hpos
      have hpos' : 0 < (tallyResults rs).2 := hpos
      obtain ⟨hlo, hhi⟩ := jsRoundPct_sum_bounds (tallyResults rs).1.positive
        (tallyResults rs).1.negative (tallyResults rs).1.neutral (tallyResults rs).2
        hpos' hsum
      refine ⟨?_, ?_, ?_, ?_, ?_⟩ <;>
        simp only [sentimentForOutcome, mkSentimentData, if_pos hpos'] <;> omega

/-- C5 witness: a concrete analyze outcome with one positively-labelled
result: `totalAnalyzed = 1`, the positive percentage is 100 and the three
percentages sum to 100. -/
theorem sentiment_percentages_sound_witness :
    0 < (sentimentForOutcome (.success [some ⟨0, "POSITIVE", 1⟩])).totalAnalyzed
    ∧ (99 ≤ (sentimentForOutcome (.success [some ⟨0, "POSITIVE", 1⟩])).positivePercentage
        + (sentimentForOutcome (.success [some ⟨0, "POSITIVE", 1⟩])).negativePercentage
        + (sentimentForOutcome (.success [some ⟨0, "POSITIVE", 1⟩])).neutralPercentage) :=
  ⟨by decide,
    ((sentiment_percentages_sound (.success [some ⟨0, "POSITIVE", 1⟩])).2 (by decide)).2.2.2.1⟩

/-- C7: for every non-empty classifier output array, the summariser keeps
an entry of the array whose score is maximal (the JavaScript `reduce`
with `prev.score > current.score ? prev : current`), and the code's
label-interpretation rule agrees with the fixed rule stated by the spec
(`POSITIVE`/`LABEL_1` positive, else `NEGATIVE`/`LABEL_0` negative, else
neutral, on the upper-cased label). -/
theorem top_score_selection_and_label_rule (h : AiOutput) (t : List AiOutput) :
    (pickTopFrom h t ∈ h :: t
      ∧ ∀ x ∈ h :: t, x.score ≤ (pickTopFrom h t).score)
    ∧ ∀ lab : String, labelCategory lab = labelRuleSpec lab :=
  ⟨pickTopFrom_spec t h, fun _ => rfl⟩

/-- C7 witness: on the concrete output array
`[{NEGATIVE, 3/4}, {POSITIVE, 1/4}]` the selected entry's score dominates
the second entry's score, and the alias label `label_1` maps to
positive. -/
theorem top_score_selection_and_label_rule_witness :
    (AiOutput.mk "POSITIVE" (1/4)).score
      ≤ (pickTopFrom ⟨"NEGATIVE", 3/4⟩ [⟨"POSITIVE", 1/4⟩]).score
    ∧ labelCategory "label_1" = Sentiment.positive :=
  ⟨(top_score_selection_and_label_rule ⟨"NEGATIVE", 3/4⟩ [⟨"POSITIVE", 1/4⟩]).1.2
      ⟨"POSITIVE", 1/4⟩ (by simp),
    (top_score_selection_and_label_rule ⟨"NEGATIVE", 3/4⟩ []).2 "label_1" ▸ (by decide)⟩

theorem analyzeOne_index (ai : String → AiRunOutcome) (index : Nat) (rawText : String)
    (r : SentimentResult) (h : analyzeOne ai index rawText = some r) :
    r.originalTextIndex = index := by
  unfold analyzeOne at h
  dsimp only at h
  split at h
  · cases h
  · split at h
    · cases h
    · cases h
    · cases h
    · cases h
      rfl

theorem analyzeTextsFrom_length (ai : String → AiRunOutcome) :
    ∀ (ts : List String) (start : Nat),
      (analyzeTextsFrom ai start ts).length = ts.length := by
  intro ts
  induction ts with
  | nil => intro start; rfl
  | cons t ts ih =>
    intro start
    simp [analyzeTextsFrom, ih]

theorem analyzeTextsFrom_index (ai : String → AiRunOutcome) :
    ∀ (ts : List String) (start i : Nat) (r : SentimentResult),
      (analyzeTextsFrom ai start ts)[i]? = some (some r) →
      r.originalTextIndex = start + i := by
  intro ts
  induction ts with
  | nil =>
    intro start i r h
    simp [analyzeTextsFrom] at h
  | cons t ts ih =>
    intro start i r h
    cases i with
    | zero =>
      simp only [analyzeTextsFrom, List.getElem?_cons_zero, Option.some.injEq] at h
      simpa using analyzeOne_index ai start t r h
    | succ j =>
      simp only [analyzeTextsFrom, List.getElem?_cons_succ] at h
      have := ih (start + 1) j r h
      omega

/-- C10: for every valid request to the analyze-sentiment endpoint (AI
binding present, non-empty `texts` array of at most 50 entries), the
response's `sentimentResults` array has exactly as many entries as
`texts` and is positionally aligned: entry `i` is either null or a result
whose `originalTextIndex` equals `i`. -/
theorem analyze_sentiment_alignment (ai : String → AiRunOutcome) (texts : List String)
    (hne : texts ≠ []) (hle : texts.length ≤ 50) :
    ∃ rs, onRequestPostAnalyze true ai (.parsed (some texts)) = .ok rs
      ∧ rs.length = texts.length
      ∧ ∀ (i : Nat) (r : SentimentResult),
          rs[i]? = some (some r) → r.originalTextIndex = i := by
  refine ⟨analyzeTextsFrom ai 0 texts, ?_, analyzeTextsFrom_length ai texts 0, ?_⟩
  · unfold onRequestPostAnalyze
    have h1 : texts.length ≠ 0 := fun h => hne (List.eq_nil_of_length_eq_zero h)
    simp [h1, Nat.not_lt.mpr hle]
  · intro i r h
    simpa using analyzeTextsFrom_index ai texts 0 i r h

/-- C10 witness: the concrete request `texts = ["hello"]` with a throwing
classifier yields a one-entry, index-aligned result list. -/
theorem analyze_sentiment_alignment_witness :
    (["hello"] ≠ ([] : List String) ∧ (["hello"] : List String).length ≤ 50)
    ∧ ∃ rs, onRequestPostAnalyze true (fun _ => .throws) (.parsed (some ["hello"])) = .ok rs
      ∧ rs.length = (["hello"] : List String).length
      ∧ ∀ (i : Nat) (r : SentimentResult),
          rs[i]? = some (some r) → r.originalTextIndex = i :=
  ⟨⟨by decide, by decide⟩,
    analyze_sentiment_alignment (fun _ => .throws) ["hello"] (by decide) (by decide)⟩

theorem aggregateStatuses_all_empty (getTime : String → Int)
    (results : List (List MastodonStatus)) (h : ∀ l ∈ results, l = []) :
    aggregateStatuses getTime results = [] := by
  unfold aggregateStatuses sortStatusesDesc
  rw [List.flatten_eq_nil_iff.mpr h]
  simp

/-- C2: every failing shape of a per-instance fetch (transport error,
non-2xx status, missing or non-JSON content type, malformed body)
contributes the empty list to the merge, and when every instance of a
resolved region fails, the handler still answers 200 with an empty
timeline and the zero sentiment record. -/
theorem fetch_failures_absorbed :
    (∀ domain : String, fetchInstance domain .transportError = [])
    ∧ (∀ (domain : String) (r : HttpResponse), r.ok = false →
        fetchInstance domain (.response r) = [])
    ∧ (∀ (domain : String) (r : HttpResponse), ctIncludesJson r.contentType = false →
        fetchInstance domain (.response r) = [])
    ∧ (∀ (domain : String) (r : HttpResponse), r.body = .error () →
        fetchInstance domain (.response r) = [])
    ∧ (∀ (getTime : String → Int) (cfgMap : String → Option String)
        (regionParam : String) (fetches : String → FetchOutcome)
        (analyze : List String → AnalyzeOutcome) (s : String),
        cfgMap (jsToUpperCase regionParam) = some s →
        parseInstances s ≠ [] →
        (∀ d ∈ parseInstances s, fetchInstance d (fetches d) = []) →
        handleTimelineGET getTime (.valid cfgMap) regionParam fetches analyze
          = .success [] defaultSentimentData) := by
  refine ⟨fun _ => rfl, ?_, ?_, ?_, ?_⟩
  · intro domain r hok
    simp [fetchInstance, hok]
  · intro domain r hct
    unfold fetchInstance
    cases hok : r.ok <;> simp [hct]
  · intro domain r hbody
    unfold fetchInstance
    cases hok : r.ok <;> cases hct : ctIncludesJson r.contentType <;> simp [hbody]
  · intro getTime cfgMap regionParam fetches analyze s hs hne hall
    have hs' : s ≠ "" := parseInstances_ne_empty_string hne
    have hagg : aggregateStatuses getTime
        ((parseInstances s).map (fun d => fetchInstance d (fetches d))) = [] := by
      refine aggregateStatuses_all_empty _ _ ?_
      intro l hl
      obtain ⟨d, hd, rfl⟩ := List.mem_map.mp hl
      exact hall d hd
    unfold handleTimelineGET
    dsimp only
    rw [hs]
    dsimp only
    rw [if_neg hs', if_neg hne, hagg]
    rfl

/-- C2 witness: region `DE` resolves to one instance whose fetch has a
transport error; the handler answers with the empty timeline and the zero
sentiment record. -/
theorem fetch_failures_absorbed_witness :
    ((fun r => if r = "DE" then some "a.example" else none) (jsToUpperCase "de")
        = some "a.example"
      ∧ parseInstances "a.example" ≠ []
      ∧ ∀ d ∈ parseInstances "a.example",
          fetchInstance d ((fun _ => FetchOutcome.transportError) d) = [])
    ∧ handleTimelineGET (fun _ => 0)
        (.valid (fun r => if r = "DE" then some "a.example" else none)) "de"
        (fun _ => FetchOutcome.transportError) (fun _ => AnalyzeOutcome.failure)
        = .success [] defaultSentimentData :=
  ⟨⟨by decide, by decide, by decide⟩,
    fetch_failures_absorbed.2.2.2.2 (fun _ => 0)
      (fun r => if r = "DE" then some "a.example" else none) "de"
      (fun _ => FetchOutcome.transportError) (fun _ => AnalyzeOutcome.failure)
      "a.example" (by decide) (by decide) (by decide)⟩

/-- C8: the route handler aborts with an error status exactly for:
500 when `REGIONS_JSON` is missing/empty or unparseable, 404 when the
upper-cased region code is unknown (absent from the config or mapped to
the empty string), and 400 when the instance list is empty after
split/trim/filter; and the resulting status never depends on the fetch,
analyze or date-parsing oracles, so per-item failures cannot produce a
request-level error. -/
theorem request_error_statuses (cfg : ConfigInput) (regionParam : String)
    (getTime getTime' : String → Int) (fetches fetches' : String → FetchOutcome)
    (analyze analyze' : List String → AnalyzeOutcome) :
    (statusOf (handleTimelineGET getTime cfg regionParam fetches analyze) = 500 ↔
      cfg = .missing ∨ cfg = .invalid)
    ∧ (statusOf (handleTimelineGET getTime cfg regionParam fetches analyze) = 404 ↔
      ∃ config, cfg = .valid config ∧
        (config (jsToUpperCase regionParam) = none
          ∨ config (jsToUpperCase regionParam) = some ""))
    ∧ (statusOf (handleTimelineGET getTime cfg regionParam fetches analyze) = 400 ↔
      ∃ config s, cfg = .valid config ∧ config (jsToUpperCase regionParam) = some s
        ∧ s ≠ "" ∧ parseInstances s = [])
    ∧ statusOf (handleTimelineGET getTime cfg regionParam fetches analyze)
      = statusOf (handleTimelineGET getTime' cfg regionParam fetches' analyze') := by
  cases cfg with
  | missing =>
    refine ⟨?_, ?_, ?_, rfl⟩
    · simp [handleTimelineGET, statusOf]
    · simp only [handleTimelineGET, statusOf]
      constructor
      · intro h; omega
      · rintro ⟨config, hcfg, _⟩; cases hcfg
    · simp only [handleTimelineGET, statusOf]
      constructor
      · intro h; omega
      · rintro ⟨config, st, hcfg, _⟩; cases hcfg
  | invalid =>
    refine ⟨?_, ?_, ?_, rfl⟩
    · simp [handleTimelineGET, statusOf]
    · simp only [handleTimelineGET, statusOf]
      constructor
      · intro h; omega
      · rintro ⟨config, hcfg, _⟩; cases hcfg
    · simp only [handleTimelineGET, statusOf]
      constructor
      · intro h; omega
      · rintro ⟨config, st, hcfg, _⟩; cases hcfg
  | valid config =>
    cases hc : config (jsToUpperCase regionParam) with
    | none =>
      have hst : ∀ (g : String → Int) (f : String → FetchOutcome)
          (a : List String → AnalyzeOutcome),
          statusOf (handleTimelineGET g (.valid config) regionParam f a) = 404 := by
        intro g f a
        unfold handleTimelineGET
        dsimp only
        rw [hc]
        rfl
      refine ⟨?_, ?_, ?_, by rw [hst, hst]⟩
      · rw [hst]
        constructor
        · intro h; omega
        · rintro (h | h) <;> cases h
      · rw [hst]
        constructor
        · intro _; exact ⟨config, rfl, Or.inl hc⟩
        · intro _; rfl
      · rw [hst]
        constructor
        · intro h; omega
        · rintro ⟨config2, st, hcfg, hcs, hne, hpe⟩
          cases hcfg
          rw [hc] at hcs
          cases hcs
    | some s =>
      by_cases hs0 : s = ""
      · subst hs0
        have hst : ∀ (g : String → Int) (f : String → FetchOutcome)
            (a : List String → AnalyzeOutcome),
            statusOf (handleTimelineGET g (.valid config) regionParam f a) = 404 := by
          intro g f a
          unfold handleTimelineGET
          dsimp only
          rw [hc]
          rfl
        refine ⟨?_, ?_, ?_, by rw [hst, hst]⟩
        · rw [hst]
          constructor
          · intro h; omega
          · rintro (h | h) <;> cases h
        · rw [hst]
          constructor
          · intro _; exact ⟨config, rfl, Or.inr hc⟩
          · intro _; rfl
        · rw [hst]
          constructor
          · intro h; omega
          · rintro ⟨config2, st, hcfg, hcs, hne, hpe⟩
            cases hcfg
            rw [hc] at hcs
            cases hcs
            exact absurd rfl hne
      · by_cases hp : parseInstances s = []
        · have hst : ∀ (g : String → Int) (f : String → FetchOutcome)
              (a : List String → AnalyzeOutcome),
              statusOf (handleTimelineGET g (.valid config) regionParam f a) = 400 := by
            intro g f a
            unfold handleTimelineGET
            dsimp only
            rw [hc]
            dsimp only
            rw [if_neg hs0, if_pos hp]
            rfl
          refine ⟨?_, ?_, ?_, by rw [hst, hst]⟩
          · rw [hst]
            constructor
            · intro h; omega
            · rintro (h | h) <;> cases h
          · rw [hst]
            constructor
            · intro h; omega
            · rintro ⟨config2, hcfg, hor⟩
              cases hcfg
              rcases hor with h | h <;> rw [hc] at h <;> cases h
              exact absurd rfl hs0
          · rw [hst]
            constructor
            · intro _; exact ⟨config, s, rfl, hc, hs0, hp⟩
            · intro _; rfl
        · have hst : ∀ (g : String → Int) (f : String → FetchOutcome)
              (a : List String → AnalyzeOutcome),
              statusOf (handleTimelineGET g (.valid config) regionParam f a) = 200 := by
            intro g f a
            unfold handleTimelineGET
            dsimp only
            rw [hc]
            dsimp only
            rw [if_neg hs0, if_neg hp]
            rfl
          refine ⟨?_, ?_, ?_, by rw [hst, hst]⟩
          · rw [hst]
            constructor
            · intro h; omega
            · rintro (h | h) <;> cases h
          · rw [hst]
            constructor
            · intro h; omega
            · rintro ⟨config2, hcfg, hor⟩
              cases hcfg
              rcases hor with h | h <;> rw [hc] at h <;> cases h
              exact absurd rfl hs0
          · rw [hst]
            constructor
            · intro h; omega
            · rintro ⟨config2, st, hcfg, hcs, hne, hpe⟩
              cases hcfg
              rw [hc] at hcs
              cases hcs
              exact absurd hpe hp

/-- C8 witness: with a missing `REGIONS_JSON` the handler answers 500. -/
theorem request_error_statuses_witness :
    statusOf (handleTimelineGET (fun _ => 0) ConfigInput.missing "de"
      (fun _ => FetchOutcome.transportError) (fun _ => AnalyzeOutcome.failure)) = 500 :=
  (request_error_statuses ConfigInput.missing "de" (fun _ => 0) (fun _ => 0)
    (fun _ => FetchOutcome.transportError) (fun _ => FetchOutcome.transportError)
    (fun _ => AnalyzeOutcome.failure) (fun _ => AnalyzeOutcome.failure)).1.mpr
    (Or.inl rfl)

/-- C1: for every region that resolves to at least one instance domain,
the handler answers success and the returned timeline has at most 50
posts and is ordered by the numeric `created_at` timestamp descending
(every earlier element's timestamp is `≥` the next element's, under the
`Date`-parsing oracle `getTime`, not under string comparison). -/
theorem timeline_bounded_and_sorted (getTime : String → Int)
    (config : String → Option String) (regionParam : String)
    (fetches : String → FetchOutcome) (analyze : List String → AnalyzeOutcome)
    (s : String) (hs : config (jsToUpperCase regionParam) = some s)
    (hne : parseInstances s ≠ []) :
    ∃ tl sa, handleTimelineGET getTime (.valid config) regionParam fetches analyze
        = .success tl sa
      ∧ tl.length ≤ 50
      ∧ tl.Pairwise (fun a b => getTime b.created_at ≤ getTime a.created_at) := by
  have hs' : s ≠ "" := parseInstances_ne_empty_string hne
  unfold handleTimelineGET
  dsimp only
  rw [hs]
  dsimp only
  rw [if_neg hs', if_neg hne]
  refine ⟨_, _, rfl, ?_, ?_⟩
  · unfold aggregateStatuses
    simp only [List.length_take]
    omega
  · unfold aggregateStatuses sortStatusesDesc
    have htrans : ∀ a b c : MastodonStatus,
        decide (getTime b.created_at ≤ getTime a.created_at) →
        decide (getTime c.created_at ≤ getTime b.created_at) →
        decide (getTime c.created_at ≤ getTime a.created_at) := by
      intro a b c hab hbc
      simp only [decide_eq_true_eq] at hab hbc ⊢
      exact le_trans hbc hab
    have htotal : ∀ a b : MastodonStatus,
        decide (getTime b.created_at ≤ getTime a.created_at)
          || decide (getTime a.created_at ≤ getTime b.created_at) := by
      intro a b
      simp only [Bool.or_eq_true, decide_eq_true_eq]
      exact Int.le_total _ _
    have hsorted := List.sorted_mergeSort htrans htotal
      (((parseInstances s).map (fun d => fetchInstance d (fetches d))).flatten)
    have htake := List.Pairwise.sublist (List.take_sublist 50 _) hsorted
    exact htake.imp (fun h => of_decide_eq_true h)

/-- C1 witness: region `DE` resolves to one instance returning two posts
with out-of-order timestamps; the handler returns them sorted descending
and within the 50-post bound. -/
theorem timeline_bounded_and_sorted_witness :
    ((fun r => if r = "DE" then some "a.example" else none) (jsToUpperCase "de")
        = some "a.example"
      ∧ parseInstances "a.example" ≠ [])
    ∧ ∃ tl sa, handleTimelineGET (fun t => if t = "B" then 5 else 1)
        (.valid (fun r => if r = "DE" then some "a.example" else none)) "de"
        (fun _ => .response ⟨true, some "application/json",
          .ok [⟨"1", "A", "c", "u", "x", none⟩, ⟨"2", "B", "c", "u", "x", none⟩]⟩)
        (fun _ => AnalyzeOutcome.failure)
        = .success tl sa
      ∧ tl.length ≤ 50
      ∧ tl.Pairwise (fun a b =>
          (if b.created_at = "B" then (5 : Int) else 1)
            ≤ (if a.created_at = "B" then (5 : Int) else 1)) :=
  ⟨⟨by decide, by decide⟩,
    timeline_bounded_and_sorted (fun t => if t = "B" then 5 else 1)
      (fun r => if r = "DE" then some "a.example" else none) "de"
      (fun _ => .response ⟨true, some "application/json",
        .ok [⟨"1", "A", "c", "u", "x", none⟩, ⟨"2", "B", "c", "u", "x", none⟩]⟩)
      (fun _ => AnalyzeOutcome.failure) "a.example" (by decide) (by decide)⟩

/-- C3 counterexample: a cleaned text of length 505 lies inside the
claimed 10-512 band, yet the inline-AI route variant (route.ts line 395,
band 10-500) skips it: with a classifier that always answers POSITIVE,
the text is excluded from `totalAnalyzed`. -/
theorem claimed_band_fails_on_inline_variant :
    routeInlineLengthSkip (stripHtml (aText 505)).length = true
    ∧ 10 ≤ (stripHtml (aText 505)).length
    ∧ (stripHtml (aText 505)).length ≤ 512
    ∧ (tallyLabels (routeInlineAnalysis (fun _ => .outputs [⟨"POSITIVE", 1⟩])
        [⟨"p505", "2024", aText 505, "u", "x", none⟩])).2 = 0 := by
  have hs : stripHtml (aText 505) = aText 505 :=
    stripHtml_replicate 'a' 505 (by omega) (by decide) (by decide)
  have hl : (aText 505).length = 505 := length_mk_replicate 'a' 505
  have hone : routeInlineClassifyOne (fun _ => .outputs [⟨"POSITIVE", 1⟩])
      ⟨"p505", "2024", aText 505, "u", "x", none⟩ = none := by
    unfold routeInlineClassifyOne
    dsimp only
    rw [hs, hl]
    simp [routeInlineLengthSkip]
  refine ⟨?_, ?_, ?_, ?_⟩
  · rw [hs, hl]
    decide
  · rw [hs, hl]
    decide
  · rw [hs, hl]
    decide
  · simp [routeInlineAnalysis, hone, tallyLabels, tallyLabelStep]

/-- C3 amended: the analyze-sentiment function classifies a cleaned text
iff its length lies in 10-512 inclusive, while the inline-AI route
variant uses 10-500 inclusive; under both gates a 1-character and a
600-character text are excluded from `totalAnalyzed` (not counted as
neutral, not counted as a failure) and a 50-character text is classified
and counted. -/
theorem length_band_gates :
    (∀ n : Nat, analyzeLengthSkip n = false ↔ 10 ≤ n ∧ n ≤ 512)
    ∧ (∀ n : Nat, routeInlineLengthSkip n = false ↔ 10 ≤ n ∧ n ≤ 500)
    ∧ (∀ (ai : String → AiRunOutcome) (index : Nat), analyzeOne ai index (aText 1) = none)
    ∧ (∀ (ai : String → AiRunOutcome) (index : Nat), analyzeOne ai index (aText 600) = none)
    ∧ tallyResults (analyzeTextsFrom (fun _ => .outputs [⟨"POSITIVE", 1⟩]) 0
        [aText 1, aText 600, aText 50]) = (⟨1, 0, 0⟩, 1) := by
  have hs1 : stripHtml (aText 1) = aText 1 :=
    stripHtml_replicate 'a' 1 (by omega) (by decide) (by decide)
  have hl1 : (aText 1).length = 1 := length_mk_replicate 'a' 1
  have hs600 : stripHtml (aText 600) = aText 600 :=
    stripHtml_replicate 'a' 600 (by omega) (by decide) (by decide)
  have hl600 : (aText 600).length = 600 := length_mk_replicate 'a' 600
  have hs50 : stripHtml (aText 50) = aText 50 :=
    stripHtml_replicate 'a' 50 (by omega) (by decide) (by decide)
  have hl50 : (aText 50).length = 50 := length_mk_replicate 'a' 50
  have e1 : ∀ (ai : String → AiRunOutcome) (index : Nat),
      analyzeOne ai index (aText 1) = none := by
    intro ai index
    unfold analyzeOne
    dsimp only
    rw [hs1, hl1]
    simp [analyzeLengthSkip]
  have e600 : ∀ (ai : String → AiRunOutcome) (index : Nat),
      analyzeOne ai index (aText 600) = none := by
    intro ai index
    unfold analyzeOne
    dsimp only
    rw [hs600, hl600]
    simp [analyzeLengthSkip]
  have e50 : analyzeOne (fun _ => .outputs [⟨"POSITIVE", 1⟩]) 2 (aText 50)
      = some ⟨2, "POSITIVE", 1⟩ := by
    unfold analyzeOne
    dsimp only
    rw [hs50, hl50]
    simp [analyzeLengthSkip, pickTopFrom]
  refine ⟨?_, ?_, e1, e600, ?_⟩
  · intro n
    simp [analyzeLengthSkip]
  · intro n
    simp [routeInlineLengthSkip]
  · rw [show analyzeTextsFrom (fun _ => .outputs [⟨"POSITIVE", 1⟩]) 0
        [aText 1, aText 600, aText 50]
        = [none, none, some ⟨2, "POSITIVE", 1⟩] from by
      simp [analyzeTextsFrom, e1, e600, e50]]
    decide

/-- C3 witness: a 42-character cleaned text passes the analyze-sentiment
length gate. -/
theorem length_band_gates_witness : analyzeLengthSkip 42 = false :=
  (length_band_gates.1 42).mpr (by omega)

/-- C9 counterexample: a clean cache miss (`kvGet` answers no entry)
whose rebuilt timeline is empty schedules no cache write at all
(`functions/api/timeline/[region].ts` line 111 guards the KV write with
`combinedStatuses.length > 0`), contradicting the claim that every cache
miss writes the computed payload back with a 300-second TTL. -/
theorem cache_miss_with_empty_result_writes_nothing :
    onRequestGetTimeline (fun _ => 0) (fun _ => "[]") (.ok none)
      (.valid (fun r => if r = "DE" then some "a.example" else none)) "de"
      (fun _ => .transportError) false
      = { response := .freshTimeline [], cacheWrites := [] } := by
  have hagg : aggregateStatuses (fun _ => (0 : Int))
      ((parseInstances "a.example").map
        (fun d => fetchInstancePages d FetchOutcome.transportError)) = [] := by
    refine aggregateStatuses_all_empty _ _ ?_
    intro l hl
    obtain ⟨d, hd, rfl⟩ := List.mem_map.mp hl
    rfl
  unfold onRequestGetTimeline
  rw [show jsToUpperCase "de" = "DE" from rfl]
  simp [hagg, show parseInstances "a.example" ≠ [] from by decide]

/-- C9 amended: a cache hit returns the stored payload verbatim with no
cache write, independently of the fetch oracle (no source fetch can
influence it); a KV read error is treated as a miss; the handler output
never depends on whether the fire-and-forget KV write would fail; a miss
whose rebuilt timeline is non-empty schedules exactly one write of the
serialized timeline under `timeline:{REGION}:notranslation` with a
300-second TTL; a miss whose rebuilt timeline is empty schedules no
write. -/
theorem cache_read_through_write_back :
    (∀ (getTime : String → Int) (serialize : List MastodonStatus → String)
        (cached : String) (cfg : ConfigInput) (regionParam : String)
        (fetches : String → FetchOutcome) (putFails : Bool),
      onRequestGetTimeline getTime serialize (.ok (some cached)) cfg regionParam
          fetches putFails
        = { response := .cachedHit cached, cacheWrites := [] })
    ∧ (∀ getTime serialize cached cfg regionParam fetches fetches' putFails putFails',
      onRequestGetTimeline getTime serialize (.ok (some cached)) cfg regionParam
          fetches putFails
        = onRequestGetTimeline getTime serialize (.ok (some cached)) cfg regionParam
          fetches' putFails')
    ∧ (∀ getTime serialize kvGet cfg regionParam fetches putFails putFails',
      onRequestGetTimeline getTime serialize kvGet cfg regionParam fetches putFails
        = onRequestGetTimeline getTime serialize kvGet cfg regionParam fetches putFails')
    ∧ (∀ getTime serialize cfg regionParam fetches putFails,
      onRequestGetTimeline getTime serialize (.error ()) cfg regionParam fetches putFails
        = onRequestGetTimeline getTime serialize (.ok none) cfg regionParam fetches putFails)
    ∧ (∀ (getTime : String → Int) (serialize : List MastodonStatus → String)
        (config : String → Option String) (regionParam : String)
        (fetches : String → FetchOutcome) (putFails : Bool) (s : String),
        config (jsToUpperCase regionParam) = some s →
        parseInstances s ≠ [] →
        aggregateStatuses getTime
          ((parseInstances s).map (fun d => fetchInstancePages d (fetches d))) ≠ [] →
        onRequestGetTimeline getTime serialize (.ok none) (.valid config) regionParam
            fetches putFails
          = { response := .freshTimeline (aggregateStatuses getTime
                ((parseInstances s).map (fun d => fetchInstancePages d (fetches d))))
              cacheWrites := [("timeline:" ++ jsToUpperCase regionParam ++ ":notranslation",
                serialize (aggregateStatuses getTime
                  ((parseInstances s).map (fun d => fetchInstancePages d (fetches d)))),
                300)] })
    ∧ (∀ (getTime : String → Int) (serialize : List MastodonStatus → String)
        (config : String → Option String) (regionParam : String)
        (fetches : String → FetchOutcome) (putFails : Bool) (s : String),
        config (jsToUpperCase regionParam) = some s →
        parseInstances s ≠ [] →
        aggregateStatuses getTime
          ((parseInstances s).map (fun d => fetchInstancePages d (fetches d))) = [] →
        (onRequestGetTimeline getTime serialize (.ok none) (.valid config) regionParam
          fetches putFails).cacheWrites = []) := by
  refine ⟨fun _ _ _ _ _ _ _ => rfl, fun _ _ _ _ _ _ _ _ _ => rfl,
    fun _ _ _ _ _ _ _ _ => rfl, fun _ _ _ _ _ _ => rfl, ?_, ?_⟩
  · intro getTime serialize config regionParam fetches putFails s hs hne hagg
    unfold onRequestGetTimeline
    dsimp only
    rw [hs]
    dsimp only
    rw [if_neg (parseInstances_ne_empty_string hne), if_neg hne,
      if_pos (List.length_pos.mpr hagg)]
  · intro getTime serialize config regionParam fetches putFails s hs hne hagg
    unfold onRequestGetTimeline
    dsimp only
    rw [hs]
    dsimp only
    rw [if_neg (parseInstances_ne_empty_string hne), if_neg hne, hagg]
    rfl

/-- C9 witness: a concrete hit returns the stored string verbatim with no
writes, and a concrete miss with one fetched post schedules exactly the
300-second write of the serialized timeline. -/
theorem cache_read_through_write_back_witness :
    (onRequestGetTimeline (fun _ => 0) (fun _ => "J") (.ok (some "CACHED"))
        (.valid (fun _ => none)) "de" (fun _ => .transportError) true
      = { response := .cachedHit "CACHED", cacheWrites := [] })
    ∧ onRequestGetTimeline (fun _ => 0) (fun _ => "J") (.ok none)
        (.valid (fun r => if r = "DE" then some "a.example" else none)) "de"
        (fun _ => .response ⟨true, some "application/json",
          .ok [⟨"1", "A", "c", "u", "x", none⟩]⟩) false
      = { response := .freshTimeline (aggregateStatuses (fun _ => 0)
            ((parseInstances "a.example").map (fun d => fetchInstancePages d
              ((fun _ => FetchOutcome.response ⟨true, some "application/json",
                .ok [⟨"1", "A", "c", "u", "x", none⟩]⟩) d))))
          cacheWrites := [("timeline:" ++ jsToUpperCase "de" ++ ":notranslation",
            (fun _ => "J") (aggregateStatuses (fun _ => (0 : Int))
              ((parseInstances "a.example").map (fun d => fetchInstancePages d
                ((fun _ => FetchOutcome.response ⟨true, some "application/json",
                  .ok [⟨"1", "A", "c", "u", "x", none⟩]⟩) d)))), 300)] } :=
  ⟨cache_read_through_write_back.1 (fun _ => 0) (fun _ => "J") "CACHED"
      (.valid (fun _ => none)) "de" (fun _ => .transportError) true,
    cache_read_through_write_back.2.2.2.2.1 (fun _ => 0) (fun _ => "J")
      (fun r => if r = "DE" then some "a.example" else none) "de"
      (fun _ => .response ⟨true, some "application/json",
        .ok [⟨"1", "A", "c", "u", "x", none⟩]⟩) false "a.example"
      (by decide) (by decide)
      (by
        intro he
        have hlen := congrArg List.length he
        simp only [aggregateStatuses, sortStatusesDesc, List.length_take,
          List.length_mergeSort, List.length_nil] at hlen
        revert hlen
        decide)⟩

end Pol
